import Mathlib

/-!
Shallow embedding of the TogetherWe game's scoring core.

Numbers are modelled as rationals (`ℚ`); JavaScript `Math.round` is
`jsRound` (floor of `x + 1/2`, which matches JS semantics including at
negative halves).  The leaderboard store (`core.js`: `saveScore`,
`loadScores`) is modelled per mode as an explicit list of entries; the
browser key-value storage is replaced by explicit state passing.
-/

namespace TogetherWe

/-- `core.clamp(value, min, max) = Math.max(min, Math.min(max, value))`. -/
def clamp (value lo hi : ℚ) : ℚ := max lo (min hi value)

/-- JavaScript `Math.round`: floor of `x + 1/2`. -/
def jsRound (q : ℚ) : ℤ := ⌊q + 1/2⌋

/-- One leaderboard entry `{ name, score, ts }` as pushed by `saveScore`. -/
structure ScoreEntry where
  name : String
  score : ℤ
  ts : ℤ
  deriving Repr, DecidableEq

/-- The descending-by-score comparison used by `scores.sort((a, b) => (b.score || 0) - (a.score || 0))`:
entry `a` may come before `b` when `b.score ≤ a.score`. -/
def scoreGE (a b : ScoreEntry) : Prop := b.score ≤ a.score

instance : DecidableRel scoreGE := fun a b => inferInstanceAs (Decidable (b.score ≤ a.score))

instance : IsTotal ScoreEntry scoreGE := ⟨fun a b => le_total b.score a.score⟩

instance : IsTrans ScoreEntry scoreGE := ⟨fun _ _ _ hab hbc => le_trans hbc hab⟩

/-- The score of the rank-1 entry, `scores.length > 0 ? scores[0].score : 0`. -/
def headScore : List ScoreEntry → ℤ
  | [] => 0
  | e :: _ => e.score

/-- `core.saveScore(mode, name, score)`: reads the mode's stored list, records
the rank-1 score as `personalBest`, pushes `{name, score, ts: Date.now()}`,
sorts descending by score, stores the top 10, and returns `score > personalBest`.
The browser storage is passed in and out explicitly (`scores` is the stored
list for the mode; `now` is `Date.now()`); the result pairs the newly stored
list with the returned boolean. -/
def saveScore (scores : List ScoreEntry) (name : String) (score : ℤ) (now : ℤ) :
    List ScoreEntry × Bool :=
  let personalBest := headScore scores
  let pushed := scores ++ [⟨name, score, now⟩]
  let sorted := pushed.insertionSort scoreGE
  (sorted.take 10, decide (personalBest < score))

/-- C2 counterexample: on an empty leaderboard with score 0, `saveScore`
returns `false` (since `0 > 0` is false), contradicting the claim that an
empty leaderboard always reports a new personal best, for any score
including 0. -/
theorem saveScore_empty_zero_not_best :
    (saveScore [] "A" 0 0).2 = false := by
  decide

/-- C2 (amended): `saveScore` reports a new personal best iff the score is
strictly greater than the rank-1 entry's score of the stored leaderboard
before the write, where an empty leaderboard counts as a rank-1 score of 0;
in particular an equal score never reports a best, and on an empty
leaderboard a score of 0 does not report a best. -/
theorem saveScore_best_iff (scores : List ScoreEntry) (name : String)
    (score now : ℤ) :
    (saveScore scores name score now).2 = true ↔ headScore scores < score := by
  simp [saveScore]

/-- C3: after every `saveScore` write the stored leaderboard has at most 10
entries and is ordered non-increasing by score across indices (entries beyond
rank 10 are discarded), for every prior stored list. -/
theorem saveScore_invariant (scores : List ScoreEntry) (name : String)
    (score now : ℤ) :
    (saveScore scores name score now).1.length ≤ 10 ∧
      (saveScore scores name score now).1.Pairwise scoreGE := by
  constructor
  · simp [saveScore]
  · have hs : ((scores ++ [(⟨name, score, now⟩ : ScoreEntry)]).insertionSort scoreGE).Pairwise
        scoreGE :=
      List.sorted_insertionSort scoreGE _
    exact (hs.sublist (List.take_sublist _ _))

/-- Round-controller state for finalization: the round-running flag together
with the mode's persisted leaderboard (`now` supplies `Date.now()` for the
pushed entry). -/
structure RoundEnd where
  isRoundRunning : Bool
  store : List ScoreEntry
  now : ℤ
  deriving Repr, DecidableEq

/-- `stopRound(name, finalScore)` (`laugh.js`, both modes): returns at once
when `isRoundRunning` is already false; otherwise clears the flag (directly
and via `cleanupAudio` / `cleanupMotion`) and persists the score through
`core.saveScore`.  UI calls are external effects and are not part of the
state. -/
def stopRound (s : RoundEnd) (name : String) (finalScore : ℤ) : RoundEnd :=
  if s.isRoundRunning then
    { s with
      isRoundRunning := false
      store := (saveScore s.store name finalScore s.now).1 }
  else s

/-- C9: finalization is idempotent per round: a second invocation of
`stopRound` (with any name and score, e.g. a manual stop racing the natural
timeout) is a no-op guarded by the round-running flag, so the persisted state
after two invocations equals the state after one, and exactly one leaderboard
entry is persisted per round. -/
theorem stopRound_idempotent (s : RoundEnd) (name name' : String)
    (score score' : ℤ) :
    stopRound (stopRound s name score) name' score' = stopRound s name score := by
  by_cases h : s.isRoundRunning = true
  · simp [stopRound, h]
  · simp [stopRound, h]

/-! ## Motion pipeline (`shake` mode, `laugh.js` second half)

`onDeviceMotion` squares the acceleration and rotation magnitudes before
integrating, so the embedding tracks the squared Euclidean norms directly
(`Math.hypot(x,y,z)² = x² + y² + z²` exactly); the degrees→radians factor
`Math.PI / 180` is an arbitrary parameter `degToRad` since π is not rational.
-/

/-- A three-axis acceleration reading; `none` at the event level models a
null object or a null `x` field (the code's `acc && acc.x !== null` test). -/
structure V3 where
  x : ℚ
  y : ℚ
  z : ℚ
  deriving Repr, DecidableEq

/-- A rotation-rate reading in degrees/second; `none` fields model null
axis values, folded to 0 by the code's `rot.alpha || 0`. -/
structure RotationRate where
  alpha : Option ℚ
  beta : Option ℚ
  gamma : Option ℚ
  deriving Repr, DecidableEq

/-- One `devicemotion` event; `timeStamp` is the value of
`event.timeStamp || performance.now()` in milliseconds. -/
structure MotionEvent where
  timeStamp : ℚ
  acceleration : Option V3
  accelerationIncludingGravity : Option V3
  rotationRate : Option RotationRate
  deriving Repr, DecidableEq

/-- The shake pipeline accumulators: `lastTimestamp`, `integratedAccEnergy`,
`integratedRotEnergy` (all start at 0 on round start). -/
structure MotionState where
  lastTimestamp : ℚ
  integratedAccEnergy : ℚ
  integratedRotEnergy : ℚ
  deriving Repr, DecidableEq

/-- `let dt = lastTimestamp ? (now - lastTimestamp) / 1000 : 0.016`
(JS truthiness: `lastTimestamp` is falsy exactly when it is 0). -/
def rawDt (s : MotionState) (e : MotionEvent) : ℚ :=
  if s.lastTimestamp = 0 then 2/125 else (e.timeStamp - s.lastTimestamp) / 1000

/-- `if (dt <= 0 || dt > 0.25) dt = 0.016` — note the substituted constant is
the literal `0.016 = 2/125`. -/
def clampDt (dt : ℚ) : ℚ :=
  if dt ≤ 0 ∨ 1/4 < dt then 2/125 else dt

/-- Squared linear-acceleration magnitude: gravity-compensated axes when
available, else gravity-inclusive axes with 9.81 subtracted from `z`,
else zero. -/
def accSq (e : MotionEvent) : ℚ :=
  match e.acceleration with
  | some a => a.x * a.x + a.y * a.y + a.z * a.z
  | none =>
    match e.accelerationIncludingGravity with
    | some g => g.x * g.x + g.y * g.y + (g.z - 981/100) * (g.z - 981/100)
    | none => 0

/-- Squared rotation-rate magnitude in (degrees/second)², with null fields
read as 0 (`event.rotationRate || {alpha: 0, ...}` and `rot.alpha || 0`). -/
def rotSqDeg (e : MotionEvent) : ℚ :=
  match e.rotationRate with
  | some r => (r.alpha.getD 0) * (r.alpha.getD 0) + (r.beta.getD 0) * (r.beta.getD 0) +
      (r.gamma.getD 0) * (r.gamma.getD 0)
  | none => 0

/-- `onDeviceMotion(event)`: clamp `dt`, update `lastTimestamp`, and
integrate `accEnergy += |acc|² · dt`, `rotEnergy += (|rot|·degToRad)² · dt`,
where `degToRad` stands for the irrational `Math.PI / 180`. -/
def onDeviceMotion (degToRad : ℚ) (s : MotionState) (e : MotionEvent) : MotionState :=
  let dt := clampDt (rawDt s e)
  { lastTimestamp := e.timeStamp
    integratedAccEnergy := s.integratedAccEnergy + accSq e * dt
    integratedRotEnergy := s.integratedRotEnergy + rotSqDeg e * (degToRad * degToRad) * dt }

/-- `const shakeRank = Math.round(6 * integratedAccEnergy + 2 * integratedRotEnergy)`
(the per-frame live score of `startShakeRound`'s gameLoop). -/
def shakeRank (s : MotionState) : ℤ :=
  jsRound (6 * s.integratedAccEnergy + 2 * s.integratedRotEnergy)

/-- An event 2 seconds after the previous one, with unit x-acceleration. -/
def gapEvent : MotionEvent :=
  { timeStamp := 3000
    acceleration := some ⟨1, 0, 0⟩
    accelerationIncludingGravity := none
    rotationRate := none }

/-- C1 counterexample: with a 2 s gap (lastTimestamp 1000 ms, event at
3000 ms) and unit acceleration, the integrated energy increment is the code's
literal `0.016 = 2/125` seconds, which is not `1/60` of a second as claimed. -/
theorem onDeviceMotion_gap_not_sixtieth :
    (onDeviceMotion 0 ⟨1000, 0, 0⟩ gapEvent).integratedAccEnergy = 2/125 ∧
      (2/125 : ℚ) ≠ 1/60 := by
  constructor
  · norm_num [onDeviceMotion, clampDt, rawDt, accSq, gapEvent]
  · norm_num

/-- Unfolding lemma: the acceleration-energy update of `onDeviceMotion`. -/
theorem onDeviceMotion_acc (degToRad : ℚ) (s : MotionState) (e : MotionEvent) :
    (onDeviceMotion degToRad s e).integratedAccEnergy =
      s.integratedAccEnergy + accSq e * clampDt (rawDt s e) := rfl

/-- Unfolding lemma: the rotation-energy update of `onDeviceMotion`. -/
theorem onDeviceMotion_rot (degToRad : ℚ) (s : MotionState) (e : MotionEvent) :
    (onDeviceMotion degToRad s e).integratedRotEnergy =
      s.integratedRotEnergy + rotSqDeg e * (degToRad * degToRad) * clampDt (rawDt s e) := rfl

/-- C1 (amended): whenever the computed delta-time is ≤ 0 or > 0.25 s, the
value used for that event's energy integration is exactly the literal
`0.016` s (= 2/125, approximately but not exactly 1/60); in particular a 2 s
gap integrates with `dt = 0.016`, not the actual gap. -/
theorem onDeviceMotion_dt_substitution (degToRad : ℚ) (s : MotionState)
    (e : MotionEvent) (h : rawDt s e ≤ 0 ∨ 1/4 < rawDt s e) :
    (onDeviceMotion degToRad s e).integratedAccEnergy =
        s.integratedAccEnergy + accSq e * (2/125) ∧
      (onDeviceMotion degToRad s e).integratedRotEnergy =
        s.integratedRotEnergy + rotSqDeg e * (degToRad * degToRad) * (2/125) := by
  have hdt : clampDt (rawDt s e) = 2/125 := by
    unfold clampDt
    rw [if_pos h]
  rw [onDeviceMotion_acc, onDeviceMotion_rot, hdt]
  exact ⟨rfl, rfl⟩

/-- Witness for C1's amended theorem at the concrete 2 s gap. -/
theorem onDeviceMotion_dt_substitution_witness :
    (onDeviceMotion 0 ⟨1000, 0, 0⟩ gapEvent).integratedAccEnergy =
        (0 : ℚ) + accSq gapEvent * (2/125) ∧
      (onDeviceMotion 0 ⟨1000, 0, 0⟩ gapEvent).integratedRotEnergy =
        (0 : ℚ) + rotSqDeg gapEvent * ((0 : ℚ) * 0) * (2/125) :=
  onDeviceMotion_dt_substitution 0 ⟨1000, 0, 0⟩ gapEvent
    (Or.inr (by norm_num [rawDt, gapEvent]))

/-- C5: at every motion frame the shake score is
`round(6 * integratedAccEnergy + 2 * integratedRotEnergy)`; in particular
with `integratedAccEnergy = 10` and `integratedRotEnergy = 5` the score
is 70. -/
theorem shakeRank_formula :
    shakeRank ⟨0, 10, 5⟩ = 70 ∧
      ∀ s : MotionState,
        shakeRank s = jsRound (6 * s.integratedAccEnergy + 2 * s.integratedRotEnergy) := by
  constructor
  · norm_num [shakeRank, jsRound]
  · intro s
    rfl

/-- The clamped delta-time is strictly positive. -/
theorem clampDt_pos (dt : ℚ) : 0 < clampDt dt := by
  unfold clampDt
  split
  · norm_num
  · next h =>
    push_neg at h
    exact h.1

/-- The squared acceleration magnitude is non-negative. -/
theorem accSq_nonneg (e : MotionEvent) : 0 ≤ accSq e := by
  unfold accSq
  rcases e.acceleration with _ | a
  · rcases e.accelerationIncludingGravity with _ | g
    · norm_num
    · nlinarith [mul_self_nonneg g.x, mul_self_nonneg g.y,
        mul_self_nonneg (g.z - 981/100)]
  · nlinarith [mul_self_nonneg a.x, mul_self_nonneg a.y, mul_self_nonneg a.z]

/-- The squared rotation magnitude is non-negative. -/
theorem rotSqDeg_nonneg (e : MotionEvent) : 0 ≤ rotSqDeg e := by
  rcases hr : e.rotationRate with _ | r
  · simp [rotSqDeg, hr]
  · simp only [rotSqDeg, hr]
    nlinarith [mul_self_nonneg (r.alpha.getD 0), mul_self_nonneg (r.beta.getD 0),
      mul_self_nonneg (r.gamma.getD 0)]

/-- Each motion event can only increase the acceleration energy. -/
theorem accEnergy_step_mono (degToRad : ℚ) (s : MotionState) (e : MotionEvent) :
    s.integratedAccEnergy ≤ (onDeviceMotion degToRad s e).integratedAccEnergy := by
  rw [onDeviceMotion_acc]
  nlinarith [clampDt_pos (rawDt s e), accSq_nonneg e]

/-- Each motion event can only increase the rotation energy. -/
theorem rotEnergy_step_mono (degToRad : ℚ) (s : MotionState) (e : MotionEvent) :
    s.integratedRotEnergy ≤ (onDeviceMotion degToRad s e).integratedRotEnergy := by
  rw [onDeviceMotion_rot]
  have h : 0 ≤ rotSqDeg e * (degToRad * degToRad) * clampDt (rawDt s e) :=
    mul_nonneg (mul_nonneg (rotSqDeg_nonneg e) (mul_self_nonneg degToRad))
      (le_of_lt (clampDt_pos (rawDt s e)))
  linarith

/-- C8: the shake score is monotonically non-decreasing over the round: the
score at any later frame (after processing further motion events) is at least
the score at any earlier frame, because the two energy accumulators never
decrease (each step adds a squared magnitude times a strictly positive dt). -/
theorem shakeRank_monotone (degToRad : ℚ) (s : MotionState)
    (evs : List MotionEvent) :
    shakeRank s ≤ shakeRank (evs.foldl (onDeviceMotion degToRad) s) := by
  induction evs generalizing s with
  | nil => exact le_refl _
  | cons e evs ih =>
    refine le_trans ?_ (ih (onDeviceMotion degToRad s e))
    unfold shakeRank jsRound
    have h1 := accEnergy_step_mono degToRad s e
    have h2 := rotEnergy_step_mono degToRad s e
    exact Int.floor_le_floor (by linarith)

/-! ## Audio pipeline (`laugh` mode, `laugh.js` first half)

The calibration loop and the 4 Hz gameLoop tick are embedded as pure
transition functions over explicit state; the sensor readings (RMS values)
and the classifier result arrive as parameters.  A classification call that
throws is modelled by `none`: the code catches the error, logs it, and leaves
`classifications` as `[]`. -/

/-- `const EMA_ALPHA = 0.2`. -/
def EMA_ALPHA : ℚ := 1/5

/-- `baselineRMS = rmsCount > 0 ? (rmsSum / rmsCount) : 0.01`, where
`rmsSum`/`rmsCount` accumulate the RMS samples taken during the 2 s
calibration window (the `samples` list). -/
def calibrate (samples : List ℚ) : ℚ :=
  let rmsSum := samples.foldl (· + ·) 0
  let rmsCount := samples.length
  if 0 < rmsCount then rmsSum / rmsCount else 1/100

/-- Does `pat` occur at the head of `l`? (character-list matching). -/
def charsStartWith : List Char → List Char → Bool
  | [], _ => true
  | _ :: _, [] => false
  | a :: as, b :: bs => a == b && charsStartWith as bs

/-- Does `pat` occur anywhere inside `l`? (JS `String.prototype.includes`). -/
def hasSubChars (pat : List Char) : List Char → Bool
  | [] => charsStartWith pat []
  | b :: bs => charsStartWith pat (b :: bs) || hasSubChars pat bs

/-- `name.toLowerCase()` as a character list. -/
def lowerChars (name : String) : List Char := name.toList.map Char.toLower

/-- `isLaughterCategory(name)`: the lower-cased name contains one of the
laughter lexicon substrings. -/
def isLaughterCategory (name : String) : Bool :=
  let n := lowerChars name
  hasSubChars ("laugh".toList) n || hasSubChars ("giggle".toList) n ||
    hasSubChars ("chuckle".toList) n || hasSubChars ("chortle".toList) n ||
    hasSubChars ("snicker".toList) n

/-- One classifier category `(categoryName, score)`. -/
structure Category where
  categoryName : String
  score : ℚ
  deriving Repr, DecidableEq

/-- The per-tick laughter probability: sum of the scores of laughter
categories, clamped to [0,1].  `classResult = none` models a classification
call that threw (the error is caught and logged and `classifications` stays
`[]`, so the round continues). -/
def tickProb (classResult : Option (List Category)) : ℚ :=
  let classifications := classResult.getD []
  let p := classifications.foldl
    (fun sum cat => sum + (if isLaughterCategory cat.categoryName then cat.score else 0)) 0
  clamp p 0 1

/-- The accumulators of `startLaughRound`'s gameLoop. -/
structure AudioTickState where
  laughProbSum : ℚ
  frameCount : ℕ
  loudPenalty : ℚ
  streak : ℕ
  streakBonus : ℕ
  emaLaughProb : ℚ
  deriving Repr, DecidableEq

/-- One 250 ms gameLoop tick: accumulate the loudness penalty from the
current RMS, compute this tick's laughter probability `p`, update the streak
and streak bonus, fold `p` into the cumulative mean, update the displayed
EMA, and return the new state together with the tick's `joyRank`
(`Math.round(Math.max(0, baseScore - finalPenalty + finalBonus))`). -/
def audioTick (baselineRMS : ℚ) (s : AudioTickState) (currentRMS : ℚ)
    (classResult : Option (List Category)) : AudioTickState × ℤ :=
  let loudThreshold := baselineRMS + 1/10
  let loudPenalty :=
    if loudThreshold < currentRMS then s.loudPenalty + min (3/100) (currentRMS - loudThreshold)
    else s.loudPenalty
  let p := tickProb classResult
  let streakPair :=
    if 3/5 ≤ p then
      (s.streak + 1, if 0 < s.streak + 1 ∧ (s.streak + 1) % 4 = 0 then s.streakBonus + 1
        else s.streakBonus)
    else (0, s.streakBonus)
  let laughProbSum := s.laughProbSum + p
  let frameCount := s.frameCount + 1
  let emaLaughProb := EMA_ALPHA * (p * 100) + (1 - EMA_ALPHA) * s.emaLaughProb
  let baseScore := 100 * (laughProbSum / (frameCount : ℚ))
  let joyRank := jsRound (max 0 (baseScore - 15 * loudPenalty + 2 * (streakPair.2 : ℚ)))
  (⟨laughProbSum, frameCount, loudPenalty, streakPair.1, streakPair.2, emaLaughProb⟩, joyRank)

/-- C6: calibration returns the arithmetic mean of the collected RMS samples
when at least one was collected, and exactly the fallback constant 0.01 when
zero samples were collected (never dividing by zero). -/
theorem calibrate_mean (samples : List ℚ) (h : samples ≠ []) :
    calibrate samples = samples.sum / (samples.length : ℚ) ∧
      calibrate [] = 1/100 := by
  constructor
  · have hlen : 0 < samples.length := List.length_pos.mpr h
    simp only [calibrate, if_pos hlen]
    rw [List.sum_eq_foldl]
  · rfl

/-- Witness for C6 at the two-sample list `[3, 5]` (mean 4). -/
theorem calibrate_mean_witness :
    ([(3 : ℚ), 5] ≠ []) ∧
      (calibrate [(3 : ℚ), 5] = ([(3 : ℚ), 5]).sum / (([(3 : ℚ), 5]).length : ℚ) ∧
        calibrate [] = 1/100) :=
  ⟨by decide, calibrate_mean [(3 : ℚ), 5] (by decide)⟩

/-- The gameLoop accumulators at round start
(`laughProbSum = 0, frameCount = 0, loudPenalty = 0, streak = 0,
streakBonus = 0, emaLaughProb = 0`). -/
def audioInit : AudioTickState := ⟨0, 0, 0, 0, 0, 0⟩

/-- Running the gameLoop over a round's tick inputs, each a pair of the
tick's instantaneous RMS reading and its classifier result. -/
def audioRun (baselineRMS : ℚ) (s : AudioTickState) :
    List (ℚ × Option (List Category)) → AudioTickState
  | [] => s
  | i :: is => audioRun baselineRMS (audioTick baselineRMS s i.1 i.2).1 is

/-- Over any run, `laughProbSum` accumulates exactly the per-tick laughter
probabilities and `frameCount` counts the ticks. -/
theorem audioRun_sum_count (baselineRMS : ℚ) (s : AudioTickState)
    (inputs : List (ℚ × Option (List Category))) :
    (audioRun baselineRMS s inputs).laughProbSum =
        s.laughProbSum + (inputs.map (fun i => tickProb i.2)).sum ∧
      (audioRun baselineRMS s inputs).frameCount = s.frameCount + inputs.length := by
  induction inputs generalizing s with
  | nil => simp [audioRun]
  | cons i is ih =>
    obtain ⟨h1, h2⟩ := ih (audioTick baselineRMS s i.1 i.2).1
    constructor
    · rw [audioRun, h1]
      show s.laughProbSum + tickProb i.2 + _ = _
      simp [add_assoc]
    · rw [audioRun, h2]
      show s.frameCount + 1 + is.length = _
      simp only [List.length_cons]
      omega

/-- A prior tick state with 39 ticks summing to 19.5 (so that one more tick
with `p = 1/2` gives a cumulative mean of exactly 0.5), no loudness penalty
and a streak bonus of 3. -/
def state56 : AudioTickState := ⟨39/2, 39, 0, 0, 3, 0⟩

/-- C4: at every audio tick the computed (live and final) score equals
`round(max(0, 100 * mean(p) - 15 * cumulativeLoudPenalty + 2 * streakBonus))`
with `mean(p)` the cumulative mean (`laughProbSum / frameCount`) of the
per-tick laughter probabilities over all ticks so far (second conjunct:
over any run from round start, `laughProbSum` is the sum of the per-tick
probabilities and `frameCount` their number); in particular a tick that
reaches mean 0.5 with zero penalty and streak bonus 3 scores 56. -/
theorem audioTick_score_formula (baselineRMS : ℚ) (s : AudioTickState)
    (currentRMS : ℚ) (cls : Option (List Category)) :
    ((audioTick baselineRMS s currentRMS cls).2 =
        jsRound (max 0
          (100 * ((audioTick baselineRMS s currentRMS cls).1.laughProbSum /
              ((audioTick baselineRMS s currentRMS cls).1.frameCount : ℚ)) -
            15 * (audioTick baselineRMS s currentRMS cls).1.loudPenalty +
            2 * ((audioTick baselineRMS s currentRMS cls).1.streakBonus : ℚ)))) ∧
      (∀ inputs : List (ℚ × Option (List Category)),
        (audioRun baselineRMS audioInit inputs).laughProbSum =
            (inputs.map (fun i => tickProb i.2)).sum ∧
          (audioRun baselineRMS audioInit inputs).frameCount = inputs.length) ∧
      (audioTick 0 state56 (1/100) (some [⟨"Laughter", 1/2⟩])).2 = 56 := by
  refine ⟨rfl, ?_, ?_⟩
  · intro inputs
    have h := audioRun_sum_count baselineRMS audioInit inputs
    simpa [audioInit] using h
  · have hL : isLaughterCategory "Laughter" = true := by decide
    have hp : tickProb (some [⟨"Laughter", 1/2⟩]) = 1/2 := by
      simp only [tickProb, Option.getD, List.foldl, hL, if_pos, clamp]
      norm_num [min_def, max_def]
    simp only [audioTick, hp, state56]
    norm_num [jsRound, min_def, max_def]

/-- C7: when the classifier call fails (modelled by `none`, the caught-error
path that leaves `classifications` empty), that tick's laughter probability
is 0, its contribution to the cumulative mean is 0 (`laughProbSum` is
unchanged while `frameCount` still increments), and the tick function still
produces a state — the round continues. -/
theorem audioTick_error_tick (baselineRMS : ℚ) (s : AudioTickState)
    (currentRMS : ℚ) :
    tickProb none = 0 ∧
      (audioTick baselineRMS s currentRMS none).1.laughProbSum = s.laughProbSum ∧
      (audioTick baselineRMS s currentRMS none).1.frameCount = s.frameCount + 1 := by
  have h0 : tickProb none = 0 := by decide
  refine ⟨h0, ?_, rfl⟩
  show s.laughProbSum + tickProb none = s.laughProbSum
  rw [h0, add_zero]

/-! ## HTML escaping (`core.js`: `escapeHtml`)

`escapeHtml` replaces each of `& < > " '` by its entity.  Strings are
modelled as character lists; `quoteChar`/`aposChar` are the double-quote and
apostrophe characters (written via their code points). -/

/-- The double-quote character `"` (code point 34). -/
def quoteChar : Char := Char.ofNat 34

/-- The apostrophe character (code point 39). -/
def aposChar : Char := Char.ofNat 39

/-- The replacement for the ampersand. -/
def ampEnt : List Char := ['&', 'a', 'm', 'p', ';']

/-- The replacement for the less-than sign. -/
def ltEnt : List Char := ['&', 'l', 't', ';']

/-- The replacement for the greater-than sign. -/
def gtEnt : List Char := ['&', 'g', 't', ';']

/-- The replacement for the double quote. -/
def quotEnt : List Char := ['&', 'q', 'u', 'o', 't', ';']

/-- The numeric replacement for the apostrophe. -/
def numEnt : List Char := ['&', '#', '3', '9', ';']

/-- The five entities substituted by `escapeHtml`. -/
def entities : List (List Char) := [ampEnt, ltEnt, gtEnt, quotEnt, numEnt]

/-- The per-character replacement table of
`str.replace(/[&<>"']/g, c => ({...}[c]))`: a special character becomes its
entity, any other character is kept. -/
def escapeHtmlChar (c : Char) : List Char :=
  if c = '&' then ampEnt
  else if c = '<' then ltEnt
  else if c = '>' then gtEnt
  else if c = quoteChar then quotEnt
  else if c = aposChar then numEnt
  else [c]

/-- `core.escapeHtml` over a character list: global replacement of the five
special characters. -/
def escapeHtml : List Char → List Char
  | [] => []
  | c :: cs => escapeHtmlChar c ++ escapeHtml cs

/-- Decidable check that every occurrence of the ampersand in a character
list is the first character of an occurrence of one of the five `entities`:
each suffix beginning with the ampersand must start with an entity. -/
def ampOk : List Char → Bool
  | [] => true
  | c :: cs =>
    (!(c == '&') || entities.any (fun e => charsStartWith e (c :: cs))) && ampOk cs

/-- `charsStartWith e` holds at any list beginning with `e`. -/
theorem charsStartWith_append_self (e r : List Char) :
    charsStartWith e (e ++ r) = true := by
  induction e with
  | nil => rfl
  | cons a as ih => simp [charsStartWith, ih]

/-- Unfolding lemma for `ampOk` at a cons cell. -/
theorem ampOk_cons (c : Char) (cs : List Char) :
    ampOk (c :: cs) =
      ((!(c == '&') || entities.any (fun e => charsStartWith e (c :: cs))) && ampOk cs) := rfl

/-- `ampOk` ignores a leading non-ampersand character. -/
theorem ampOk_cons_of_ne (c : Char) (cs : List Char) (h : (c == '&') = false) :
    ampOk (c :: cs) = ampOk cs := by
  rw [ampOk_cons, h]
  simp

/-- `ampOk` ignores a leading run of non-ampersand characters. -/
theorem ampOk_append_of_all_ne (l rest : List Char)
    (h : ∀ c ∈ l, (c == '&') = false) : ampOk (l ++ rest) = ampOk rest := by
  induction l with
  | nil => rfl
  | cons a as ih =>
    rw [List.cons_append, ampOk_cons_of_ne a _ (h a (List.mem_cons_self a as))]
    exact ih fun c hc => h c (List.mem_cons_of_mem a hc)

/-- Prepending a whole entity (ampersand followed by non-ampersand
characters) preserves `ampOk`. -/
theorem ampOk_entity_append (rest : List Char) (tl : List Char)
    (hmem : ('&' :: tl) ∈ entities) (hne : ∀ c ∈ tl, (c == '&') = false) :
    ampOk (('&' :: tl) ++ rest) = ampOk rest := by
  rw [List.cons_append, ampOk_cons]
  have hany : entities.any (fun e => charsStartWith e ('&' :: (tl ++ rest))) = true :=
    List.any_eq_true.mpr ⟨'&' :: tl, hmem, charsStartWith_append_self ('&' :: tl) rest⟩
  rw [hany]
  simp [ampOk_append_of_all_ne tl rest hne]

/-- Every character emitted for one input character avoids the four raw
characters `< > " '`. -/
theorem escapeHtmlChar_safe (c : Char) :
    ∀ x ∈ escapeHtmlChar c, x ≠ '<' ∧ x ≠ '>' ∧ x ≠ quoteChar ∧ x ≠ aposChar := by
  intro x hx
  by_cases h1 : c = '&'
  · simp only [escapeHtmlChar, if_pos h1] at hx
    have hx' : x ∈ ['&', 'a', 'm', 'p', ';'] := hx
    fin_cases hx' <;> decide
  · by_cases h2 : c = '<'
    · simp only [escapeHtmlChar, if_neg h1, if_pos h2] at hx
      have hx' : x ∈ ['&', 'l', 't', ';'] := hx
      fin_cases hx' <;> decide
    · by_cases h3 : c = '>'
      · simp only [escapeHtmlChar, if_neg h1, if_neg h2, if_pos h3] at hx
        have hx' : x ∈ ['&', 'g', 't', ';'] := hx
        fin_cases hx' <;> decide
      · by_cases h4 : c = quoteChar
        · simp only [escapeHtmlChar, if_neg h1, if_neg h2, if_neg h3, if_pos h4] at hx
          have hx' : x ∈ ['&', 'q', 'u', 'o', 't', ';'] := hx
          fin_cases hx' <;> decide
        · by_cases h5 : c = aposChar
          · simp only [escapeHtmlChar, if_neg h1, if_neg h2, if_neg h3, if_neg h4,
              if_pos h5] at hx
            have hx' : x ∈ ['&', '#', '3', '9', ';'] := hx
            fin_cases hx' <;> decide
          · simp only [escapeHtmlChar, if_neg h1, if_neg h2, if_neg h3, if_neg h4,
              if_neg h5, List.mem_singleton] at hx
            subst hx
            exact ⟨h2, h3, h4, h5⟩

/-- C10: for every input, the output of `escapeHtml` contains no raw `<`,
`>`, `"` or `'`, and every ampersand in the output is the first character of
an occurrence of one of the five substituted entities (`ampOk`), so the
escaped output rendered as HTML cannot open a tag or attribute. -/
theorem escapeHtml_output_safe (s : List Char) :
    (∀ x ∈ escapeHtml s, x ≠ '<' ∧ x ≠ '>' ∧ x ≠ quoteChar ∧ x ≠ aposChar) ∧
      ampOk (escapeHtml s) = true := by
  induction s with
  | nil =>
    refine ⟨?_, rfl⟩
    intro x hx
    cases hx
  | cons c cs ih =>
    obtain ⟨ihA, ihB⟩ := ih
    constructor
    · intro x hx
      rcases List.mem_append.mp hx with hx | hx
      · exact escapeHtmlChar_safe c x hx
      · exact ihA x hx
    · show ampOk (escapeHtmlChar c ++ escapeHtml cs) = true
      by_cases h1 : c = '&'
      · rw [show escapeHtmlChar c = '&' :: ['a', 'm', 'p', ';'] from by
          simp [escapeHtmlChar, if_pos h1, ampEnt]]
        rw [ampOk_entity_append _ _ (by decide) (by decide)]
        exact ihB
      · by_cases h2 : c = '<'
        · rw [show escapeHtmlChar c = '&' :: ['l', 't', ';'] from by
            simp [escapeHtmlChar, if_neg h1, if_pos h2, ltEnt]]
          rw [ampOk_entity_append _ _ (by decide) (by decide)]
          exact ihB
        · by_cases h3 : c = '>'
          · rw [show escapeHtmlChar c = '&' :: ['g', 't', ';'] from by
              simp [escapeHtmlChar, if_neg h1, if_neg h2, if_pos h3, gtEnt]]
            rw [ampOk_entity_append _ _ (by decide) (by decide)]
            exact ihB
          · by_cases h4 : c = quoteChar
            · rw [show escapeHtmlChar c = '&' :: ['q', 'u', 'o', 't', ';'] from by
                simp [escapeHtmlChar, if_neg h1, if_neg h2, if_neg h3, if_pos h4, quotEnt]]
              rw [ampOk_entity_append _ _ (by decide) (by decide)]
              exact ihB
            · by_cases h5 : c = aposChar
              · rw [show escapeHtmlChar c = '&' :: ['#', '3', '9', ';'] from by
                  simp [escapeHtmlChar, if_neg h1, if_neg h2, if_neg h3, if_neg h4,
                    if_pos h5, numEnt]]
                rw [ampOk_entity_append _ _ (by decide) (by decide)]
                exact ihB
              · rw [show escapeHtmlChar c = [c] from by
                  simp [escapeHtmlChar, if_neg h1, if_neg h2, if_neg h3, if_neg h4,
                    if_neg h5]]
                rw [List.singleton_append,
                  ampOk_cons_of_ne c _ (beq_eq_false_iff_ne.mpr h1)]
                exact ihB

end TogetherWe
